import Mathlib

/-!
Shallow embedding of the datus-hive adapter's configuration extraction and
result normalization logic (datus_hive/config.py and datus_hive/connector.py),
with theorems checking the specification's claims against it.

Python scalar values are modelled by `Value`; Python dicts are modelled as
association lists in insertion order with distinct keys (Python dict
semantics); pandas tabular results are modelled column-major as a list of
(column name, column values) pairs.
-/

/-- A Python scalar value as it appears in carrier maps and tabular results. -/
inductive Value where
  | str (s : String)
  | int (n : Int)
  | bool (b : Bool)
  | null
deriving DecidableEq, Repr

/-- The backtick character. -/
def btick : Char := Char.ofNat 96

/-- Python `key.startswith(prefix)` (character-based). -/
def pyStartsWith (s p : String) : Bool := p.data.isPrefixOf s.data

/-- Python `s[n:]` (drop the first `n` characters). -/
def pyDrop (s : String) (n : Nat) : String := String.mk (s.data.drop n)

/-- Python `s.lower()` (ASCII lowering suffices for the identifiers here). -/
def pyLower (s : String) : String := String.mk (s.data.map Char.toLower)

/-- Python `s.strip()`: remove leading and trailing whitespace (the ASCII
whitespace characters suffice for the values handled here). -/
def pyStrip (s : String) : String :=
  String.mk (((s.data.dropWhile Char.isWhitespace).reverse.dropWhile
    Char.isWhitespace).reverse)

/-- Python `s.isdigit()` restricted to decimal digits: non-empty and all digits. -/
def pyIsDigit (s : String) : Bool := !s.data.isEmpty && s.data.all Char.isDigit

/-- Decimal value of a digit string, as `int(s)` computes it for digit-only `s`. -/
def digitsVal (s : String) : Int :=
  (s.data.foldl (fun acc c => 10 * acc + (c.toNat - 48)) (0 : Nat) : Int)

/-- Python `str(value)` for the modelled scalar values. -/
def pyStr : Value → String
  | .str s => s
  | .int n => toString n
  | .bool b => if b then "True" else "False"
  | .null => "None"

/-- A carrier map / Python dict: association list in insertion order. -/
abbrev Dict := List (String × Value)

/-- Result of `_extract_prefixed_config`: the Python code builds one dict whose
`"configuration"` entry always holds the nested settings dict; we keep the base
entries and the nested settings as the two components of that dict. -/
structure ExtractResult where
  base : Dict
  configuration : Dict
deriving DecidableEq, Repr

/-- The per-entry base-parameter step of `_extract_prefixed_config`: a
`"port"` key whose value is a digit string is converted to an integer; every
other entry passes through unchanged. -/
def portBase (kv : String × Value) : String × Value :=
  if kv.1 = "port" then
    match kv.2 with
    | Value.str s => if pyIsDigit s then (kv.1, Value.int (digitsVal s)) else kv
    | _ => kv
  else kv

/-- `_extract_prefixed_config` from datus_hive/config.py: select entries whose
key starts with `prefix`, strip the prefix, split locals into
`configuration.`-namespaced settings and base parameters, applying `portBase`
to every base entry. -/
def extractPrefixedConfig (carrierMap : Dict) (pfx : String) : ExtractResult :=
  let hiveConfig := carrierMap.filterMap (fun kv =>
    if pyStartsWith kv.1 pfx then some (pyDrop kv.1 pfx.length, kv.2) else none)
  let configurationParams := hiveConfig.filterMap (fun kv =>
    if pyStartsWith kv.1 "configuration." then some (pyDrop kv.1 14, kv.2) else none)
  let baseParams := hiveConfig.filterMap (fun kv =>
    if pyStartsWith kv.1 "configuration." then none else some (portBase kv))
  { base := baseParams, configuration := configurationParams }

/-- The `HiveConfig` record (pydantic model in datus_hive/config.py). -/
structure HiveConfig where
  host : String
  port : Int
  database : Option String
  username : String
  password : String
  auth : Option String
  configuration : Dict
  timeout_seconds : Int
deriving DecidableEq, Repr

/-- Validation error raised by pydantic at construction (`ValidationError`). -/
inductive ConfigError where
  | extraField
  | missingField
  | coercion
deriving DecidableEq, Repr

/-- The declared top-level field names of `HiveConfig` (everything else is
rejected by `extra="forbid"`). -/
def allowedKeys : List String :=
  ["host", "port", "database", "username", "password", "auth",
   "configuration", "timeout_seconds"]

/-- Pydantic lax coercion into `str`: only strings are accepted. -/
def coerceStr : Value → Option String
  | .str s => some s
  | _ => none

/-- Pydantic lax coercion into `int`: integers pass, digit strings with an
optional sign parse, booleans and null are rejected. -/
def coerceInt : Value → Option Int
  | .int n => some n
  | .str s =>
    let t := pyStrip s
    if pyIsDigit t then some (digitsVal t)
    else if pyStartsWith t "-" && pyIsDigit (pyDrop t 1) then
      some (-(digitsVal (pyDrop t 1)))
    else if pyStartsWith t "+" && pyIsDigit (pyDrop t 1) then
      some (digitsVal (pyDrop t 1))
    else none
  | _ => none

/-- Pydantic lax coercion into `Optional[str]`: `None` or a string. -/
def coerceOptStr : Value → Option (Option String)
  | .null => some none
  | .str s => some (some s)
  | _ => none

/-- Look up a declared field in the keyword dict: absent yields `dflt`,
present-but-uncoercible raises, otherwise the coerced value. -/
def fieldOr {α : Type} (base : Dict) (name : String) (coe : Value → Option α)
    (dflt : Except ConfigError α) : Except ConfigError α :=
  match base.lookup name with
  | none => dflt
  | some v =>
    match coe v with
    | some a => Except.ok a
    | none => Except.error ConfigError.coercion

/-- `HiveConfig(**result)` where `result` is the dict assembled by
`_extract_prefixed_config`: pydantic first rejects any key outside the declared
fields (`extra="forbid"`), requires `username`, applies defaults for absent
fields and lax coercion for present ones. The `configuration` entry of the
assembled dict always holds the nested settings dict, which `Dict[str, Any]`
accepts as is. -/
def HiveConfig.construct (base : Dict) (configuration : Dict) :
    Except ConfigError HiveConfig := do
  if !(base.map Prod.fst).all (fun k => allowedKeys.contains k) then
    throw ConfigError.extraField
  let host ← fieldOr base "host" coerceStr (pure "127.0.0.1")
  let port ← fieldOr base "port" coerceInt (pure 10000)
  let database ← fieldOr base "database" coerceOptStr (pure none)
  let username ← fieldOr base "username" coerceStr (throw ConfigError.missingField)
  let password ← fieldOr base "password" coerceStr (pure "")
  let auth ← fieldOr base "auth" coerceOptStr (pure none)
  let timeout_seconds ← fieldOr base "timeout_seconds" coerceInt (pure 30)
  pure { host, port, database, username, password, auth,
         configuration, timeout_seconds }

/-- `HiveConfig.from_config_map`: extraction followed by construction. -/
def HiveConfig.from_config_map (configMap : Dict) (pfx : String) :
    Except ConfigError HiveConfig :=
  let e := extractPrefixedConfig configMap pfx
  HiveConfig.construct e.base e.configuration

/-- `HiveConnector._normalize_configuration`: render every settings value as a
string for PyHive (`None` to `""`, booleans to `"true"`/`"false"`, anything
else via `str`). -/
def normalizeConfiguration (configuration : Dict) : List (String × String) :=
  configuration.map (fun kv =>
    match kv.2 with
    | .null => (kv.1, "")
    | .bool b => (kv.1, if b then "true" else "false")
    | v => (kv.1, pyStr v))

/-- Python `identifier.replace(old, new)` for a single-character pattern. -/
def pyReplaceChar (s : String) (old : Char) (new : String) : String :=
  String.mk (s.data.flatMap (fun c => if c = old then new.data else [c]))

/-- `HiveConnector._quote_identifier`: double embedded backticks, then wrap the
result in backticks. -/
def quoteIdentifier (identifier : String) : String :=
  "`" ++ pyReplaceChar identifier btick "``" ++ "`"

/-- A pandas tabular result, column-major: ordered columns, each a name paired
with its values in row order. Faithful for results with distinct column names
(pandas label access `result[col]` is positional only in that case). -/
structure TabularResult where
  cols : List (String × List Value)
deriving DecidableEq, Repr

/-- Number of rows (pandas keeps all columns the same length). -/
def TabularResult.nrows (r : TabularResult) : Nat :=
  (r.cols.head?.map (fun c => c.2.length)).getD 0

/-- pandas `result.empty`: true when either axis has length zero. -/
def TabularResult.isEmpty (r : TabularResult) : Bool :=
  r.cols.isEmpty || r.nrows == 0

/-- The priority list of recognized name columns in `_extract_table_names`. -/
def priorityNames : List String := ["tablename", "tab_name", "table_name", "name"]

/-- The entry `column_map[p]`: the Python dict comprehension
`{str(col).lower(): col for col in result.columns}` keeps, for each lowered
name, the LAST column carrying it. -/
def columnForLower (r : TabularResult) (p : String) : Option (String × List Value) :=
  r.cols.reverse.find? (fun c => pyLower c.1 == p)

/-- The string-typed, non-blank values of a column, in row order
(`[str(v) for v in values if isinstance(v, str) and v.strip()]`). -/
def nonblankStrings (vals : List Value) : List String :=
  vals.filterMap (fun v =>
    match v with
    | .str s => if pyStrip s ≠ "" then some s else none
    | _ => none)

/-- Whether a value is a Python `str`. -/
def Value.isStr : Value → Bool
  | .str _ => true
  | _ => false

/-- The non-null, non-boolean values of a column, stringified, in row order
(`[str(v) for v in values if v is not None and not isinstance(v, bool)]`). -/
def nonNullNonBool (vals : List Value) : List String :=
  vals.filterMap (fun v =>
    match v with
    | .null => none
    | .bool _ => none
    | v => some (pyStr v))

/-- `HiveConnector._extract_table_names`: empty results give `[]`; else the
first priority name found in the lowered column names selects its column,
whose values are stringified unfiltered; else the first column whose
string-typed non-blank values are non-empty contributes them; else the first
column whose non-null non-boolean values are non-empty contributes them
stringified; else `[]`. -/
def extractTableNames (r : TabularResult) : List String :=
  if r.isEmpty then []
  else
    match priorityNames.findSome? (fun p => columnForLower r p) with
    | some c => c.2.map pyStr
    | none =>
      match r.cols.findSome? (fun c =>
          if c.2.any Value.isStr then
            (if nonblankStrings c.2 ≠ [] then some (nonblankStrings c.2) else none)
          else none) with
      | some names => names
      | none =>
        match r.cols.findSome? (fun c =>
            if nonNullNonBool c.2 ≠ [] then some (nonNullNonBool c.2) else none) with
        | some names => names
        | none => []

/-- One schema record emitted by `HiveConnector.get_schema`. -/
structure SchemaRecord where
  cid : Nat
  name : String
  type : String
  comment : Option String
  nullable : Bool
  pk : Bool
  default_value : Option Value
deriving DecidableEq, Repr

/-- Row `i` of the name column, as the code computes it:
`str(result[col_name][i]).strip() if result[col_name][i] is not None else ""`. -/
def rowName (v : Value) : String :=
  match v with
  | .null => ""
  | v => pyStrip (pyStr v)

/-- The type field for row `i`: `str(result[type_col][i]).strip() if type_col
else ""`; `type_col` is falsy when absent or when its column name is `""`. -/
def rowType (typeCol : Option (String × List Value)) (i : Nat) : String :=
  match typeCol with
  | none => ""
  | some c => if c.1 = "" then "" else pyStrip (pyStr (c.2.getD i Value.null))

/-- The comment field for row `i`: `str(result[comment_col][i]).strip() if
comment_col else None`. -/
def rowComment (commentCol : Option (String × List Value)) (i : Nat) : Option String :=
  match commentCol with
  | none => none
  | some c => if c.1 = "" then none else some (pyStrip (pyStr (c.2.getD i Value.null)))

/-- The break condition of the row loop of `get_schema`: the trimmed name
field is empty or begins with `#`. -/
def isSentinelRow (v : Value) : Bool :=
  rowName v = "" || pyStartsWith (rowName v) "#"

/-- The row loop of `get_schema`: walk the name column in order; at the first
row whose trimmed name is empty or starts with `#`, break; otherwise emit a
record with `nullable=True`, `pk=False`, `default_value=None`. -/
def schemaLoop (typeCol commentCol : Option (String × List Value)) :
    Nat → List Value → List SchemaRecord
  | _, [] => []
  | i, v :: vs =>
    if isSentinelRow v then []
    else
      { cid := i, name := rowName v, type := rowType typeCol i,
        comment := rowComment commentCol i, nullable := true, pk := false,
        default_value := none } :: schemaLoop typeCol commentCol (i + 1) vs

/-- The result-processing part of `HiveConnector.get_schema`, applied to the
`DESCRIBE` result: first column is names, second (if any) types, third (if
any) comments. -/
def extractSchema (r : TabularResult) : List SchemaRecord :=
  if r.isEmpty then []
  else
    match r.cols with
    | [] => []
    | c0 :: rest => schemaLoop rest.head? (rest.get? 1) 0 c0.2

/-- `HiveConnector.full_name`: qualify the table name with the effective
database (Python `or` treats the empty string as falsy). -/
def fullName (selfDatabase databaseName tableName : String) : String :=
  let db := if databaseName = "" then selfDatabase else databaseName
  if db ≠ "" then quoteIdentifier db ++ "." ++ quoteIdentifier tableName
  else quoteIdentifier tableName

/-- An observable side effect of a connector method. -/
inductive Effect where
  | connect
  | execute (sql : String)
deriving DecidableEq, Repr

/-- `HiveConnector.get_schema` with its effects made explicit: an empty table
name returns `[]` before `self.connect()` and before any SQL is issued;
otherwise the connector connects, runs `DESCRIBE` on the qualified name, and
normalizes the result (`fetch` stands for `_execute_pandas`). -/
def getSchema (selfDatabase catalogName databaseName schemaName tableName : String)
    (fetch : String → TabularResult) : List Effect × List SchemaRecord :=
  if tableName = "" then ([], [])
  else
    let sql := "DESCRIBE " ++ fullName selfDatabase databaseName tableName
    ([Effect.connect, Effect.execute sql], extractSchema (fetch sql))

/-- An SQL-execution outcome of `_execute_pandas`: a result, or a raised
exception `ε`. -/
abbrev ExecOutcome (ε : Type) := Except ε TabularResult

/-- `HiveConnector.get_tables`: errors from `_execute_pandas` propagate to the
caller (`run` gives the outcome of the single `SHOW TABLES` statement). -/
def getTables {ε : Type} (run : ExecOutcome ε) : Except ε (List String) :=
  match run with
  | .error e => .error e
  | .ok r => .ok (extractTableNames r)

/-- `HiveConnector.get_views`: the `try/except` around `_execute_pandas` turns
any raised exception into an empty list. -/
def getViews {ε : Type} (run : ExecOutcome ε) : Except ε (List String) :=
  match run with
  | .error _ => .ok []
  | .ok r => .ok (extractTableNames r)

/-- Spec 4.4's serialization rule, stated per value as the spec words it:
null becomes `""`, booleans `"true"`/`"false"`, anything else its default
string representation. -/
def serializeSettingsValue : Value → String
  | .null => ""
  | .bool true => "true"
  | .bool false => "false"
  | v => pyStr v

/-- C7: settings serialization is total (a Lean function) and maps every
entry by the spec's rule: null to the empty string, booleans to
`"true"`/`"false"`, all other values to their default string representation;
in particular `{"a": None, "b": True, "c": 100}` maps to
`{"a": "", "b": "true", "c": "100"}`. -/
theorem c7_settings_serialization :
    (∀ configuration : Dict, normalizeConfiguration configuration =
      configuration.map (fun kv => (kv.1, serializeSettingsValue kv.2))) ∧
    normalizeConfiguration [("a", .null), ("b", .bool true), ("c", .int 100)] =
      [("a", ""), ("b", "true"), ("c", "100")] := by
  constructor
  · intro configuration
    unfold normalizeConfiguration
    congr 1
    funext kv
    rcases kv with ⟨k, v⟩
    cases v with
    | bool b => cases b <;> rfl
    | str s => rfl
    | int n => rfl
    | null => rfl
  · rfl

/-- C8 counterexample: `quote_identifier("a`b")` does return `` `a``b` ``, but
the input has 3 characters and the output 6, not 5 and 7 as the claim's
parenthetical states. -/
theorem c8_counterexample :
    quoteIdentifier "a`b" = "`a``b`" ∧
    ("a`b").length = 3 ∧ (quoteIdentifier "a`b").length = 6 ∧
    ¬(("a`b").length = 5 ∧ (quoteIdentifier "a`b").length = 7) := by
  refine ⟨rfl, rfl, rfl, ?_⟩
  decide

/-- C8 (amended): for every string `name`, `quote_identifier` returns `name`
wrapped in backticks with every embedded backtick doubled; in particular
`quote_identifier("a`b")` returns `` `a``b` `` (the 3-character input becomes
a 6-character backtick-delimited string). -/
theorem c8_quote_identifier (name : String) :
    quoteIdentifier name =
      "`" ++ String.mk (name.data.flatMap (fun c =>
        if c = btick then [btick, btick] else [c])) ++ "`" ∧
    quoteIdentifier "a`b" = "`a``b`" ∧
    ("a`b").length = 3 ∧ (quoteIdentifier "a`b").length = 6 := by
  refine ⟨?_, rfl, rfl, rfl⟩
  unfold quoteIdentifier pyReplaceChar
  have h : (fun c => if c = btick then ("``" : String).data else [c]) =
      (fun c : Char => if c = btick then [btick, btick] else [c]) := by
    funext c
    by_cases hc : c = btick <;> simp [hc] <;> decide
  rw [h]

/-- C9: for every connector state and catalog/database/schema choice,
`get_schema` with an empty table name returns `[]` with no connect and no SQL
executed. -/
theorem c9_get_schema_empty_table_name
    (selfDatabase catalogName databaseName schemaName : String)
    (fetch : String → TabularResult) :
    getSchema selfDatabase catalogName databaseName schemaName "" fetch = ([], []) :=
  rfl

/-- C10: when executing the `SHOW VIEWS` statement raises, `get_views`
swallows the exception and returns `[]`, while `get_tables` propagates the
same kind of failure. -/
theorem c10_get_views_swallows_errors {ε : Type} (e : ε) :
    getViews (Except.error e) = Except.ok ([] : List String) ∧
    getTables (Except.error e : ExecOutcome ε) = Except.error e :=
  ⟨rfl, rfl⟩

/-- Spec 4.3's description of schema extraction, stated directly: take rows
while their trimmed name is not a sentinel, then emit one record per kept row
with zero-based positions, `nullable=true`, `primary_key=false`, and no
default value. -/
def extractSchemaSpec (r : TabularResult) : List SchemaRecord :=
  if r.isEmpty then []
  else
    match r.cols with
    | [] => []
    | c0 :: rest =>
      (c0.2.takeWhile (fun v => !isSentinelRow v)).enum.map (fun ia =>
        { cid := ia.1, name := rowName ia.2, type := rowType rest.head? ia.1,
          comment := rowComment (rest.get? 1) ia.1, nullable := true,
          pk := false, default_value := none })

lemma schemaLoop_eq_takeWhile (typeCol commentCol : Option (String × List Value))
    (i : Nat) (vs : List Value) :
    schemaLoop typeCol commentCol i vs =
      ((vs.takeWhile (fun v => !isSentinelRow v)).enumFrom i).map (fun ia =>
        { cid := ia.1, name := rowName ia.2, type := rowType typeCol ia.1,
          comment := rowComment commentCol ia.1, nullable := true, pk := false,
          default_value := none }) := by
  induction vs generalizing i with
  | nil => rfl
  | cons v vs ih =>
    cases h : isSentinelRow v with
    | true => simp [schemaLoop, h, List.takeWhile_cons]
    | false => simp [schemaLoop, h, List.takeWhile_cons, List.enumFrom, ih]

/-- C6: for every DESCRIBE result, `extract_schema` equals the spec's
take-rows-until-sentinel form (rows in order with zero-based positions,
stopping at and discarding the first row whose trimmed name is empty or
begins with `#`, every emitted record having `nullable=true`, `pk=false` and
no default value); in particular the four-row example yields exactly the
records for `id` and `name`, in that order. -/
theorem c6_schema_stop_on_sentinel :
    (∀ r : TabularResult, extractSchema r = extractSchemaSpec r) ∧
    extractSchema
      ⟨[("col_name",
         [.str "id", .str "name", .str "# Partition Information", .str "dt"]),
        ("data_type", [.str "int", .str "string", .str "", .str "string"]),
        ("comment", [.str "", .str "", .str "", .str ""])]⟩ =
      [{ cid := 0, name := "id", type := "int", comment := some "",
         nullable := true, pk := false, default_value := none },
       { cid := 1, name := "name", type := "string", comment := some "",
         nullable := true, pk := false, default_value := none }] := by
  constructor
  · intro r
    obtain ⟨cols⟩ := r
    unfold extractSchema extractSchemaSpec
    by_cases h : TabularResult.isEmpty ⟨cols⟩
    · simp [h]
    · simp only [h, if_false, Bool.false_eq_true]
      cases cols with
      | nil => rfl
      | cons c0 rest =>
        simpa [List.enum] using schemaLoop_eq_takeWhile rest.head? (rest.get? 1) 0 c0.2
  · rfl

/-- C4: for every non-empty tabular result some of whose columns bear a
priority name, let `p` be the first of `tablename, tab_name, table_name,
name` (in that order) equal to some column's lower-cased name, and let `c` be
the last column whose lower-cased name is `p` (the Python dict comprehension
keeps the last column per lowered name); then `extract_names` returns exactly
that column's values converted to strings, in row order, with no value
filtered out. -/
theorem c4_name_extraction_priority (r : TabularResult) (c : String × List Value)
    (pre post : List (String × List Value)) (p : String)
    (hne : r.isEmpty = false)
    (hp : p ∈ priorityNames)
    (hfirst : ∀ q ∈ priorityNames.takeWhile (fun q => q ≠ p),
      ∀ c' ∈ r.cols, pyLower c'.1 ≠ q)
    (hsplit : r.cols = pre ++ c :: post)
    (hcp : pyLower c.1 = p)
    (hlast : ∀ c' ∈ post, pyLower c'.1 ≠ p) :
    extractTableNames r = c.2.map pyStr := by
  have hsome : columnForLower r p = some c := by
    unfold columnForLower
    rw [hsplit, show (pre ++ c :: post).reverse = post.reverse ++ c :: pre.reverse
      by simp [List.reverse_append]]
    rw [List.find?_append]
    have hrev : post.reverse.find? (fun c' => pyLower c'.1 == p) = none := by
      rw [List.find?_eq_none]
      intro x hxm
      simp only [beq_iff_eq]
      exact hlast x (List.mem_reverse.mp hxm)
    rw [hrev, List.find?_cons_of_pos _ (by simp [hcp])]
    rfl
  have hnone : ∀ q ∈ priorityNames.takeWhile (fun q => q ≠ p),
      columnForLower r q = none := by
    intro q hq
    unfold columnForLower
    rw [List.find?_eq_none]
    intro x hxm
    simp only [beq_iff_eq]
    exact hfirst q hq x (List.mem_reverse.mp hxm)
  have hfind : priorityNames.findSome? (fun q => columnForLower r q) = some c := by
    have hp4 : p = "tablename" ∨ p = "tab_name" ∨ p = "table_name" ∨
        p = "name" := by
      simpa [priorityNames] using hp
    rcases hp4 with h | h | h | h <;> subst h
    · simp [priorityNames, List.findSome?_cons, hsome]
    · have e1 : columnForLower r "tablename" = none := hnone _ (by decide)
      simp [priorityNames, List.findSome?_cons, e1, hsome]
    · have e1 : columnForLower r "tablename" = none := hnone _ (by decide)
      have e2 : columnForLower r "tab_name" = none := hnone _ (by decide)
      simp [priorityNames, List.findSome?_cons, e1, e2, hsome]
    · have e1 : columnForLower r "tablename" = none := hnone _ (by decide)
      have e2 : columnForLower r "tab_name" = none := hnone _ (by decide)
      have e3 : columnForLower r "table_name" = none := hnone _ (by decide)
      simp [priorityNames, List.findSome?_cons, e1, e2, e3, hsome]
  simp [extractTableNames, hne, hfind]

/-- C4 witness: the spec's example (case-insensitive match on `tableName`
among `["database","tableName","isTemporary"]`), and a multi-match result
where both `name` and `tab_name` columns are present and the priority order
designates the `tab_name` column. -/
theorem c4_witness :
    extractTableNames
      ⟨[("database", [.str "default"]), ("tableName", [.str "table_a"]),
        ("isTemporary", [.bool false])]⟩ = ["table_a"] ∧
    extractTableNames
      ⟨[("name", [.str "n1"]), ("tab_name", [.str "t1"])]⟩ = ["t1"] :=
  ⟨c4_name_extraction_priority
    ⟨[("database", [.str "default"]), ("tableName", [.str "table_a"]),
      ("isTemporary", [.bool false])]⟩
    ("tableName", [.str "table_a"])
    [("database", [.str "default"])] [("isTemporary", [.bool false])]
    "tablename"
    (by decide) (by decide) (by decide) rfl (by decide) (by decide),
   c4_name_extraction_priority
    ⟨[("name", [.str "n1"]), ("tab_name", [.str "t1"])]⟩
    ("tab_name", [.str "t1"])
    [("name", [.str "n1"])] []
    "tab_name"
    (by decide) (by decide) (by decide) rfl (by decide) (by decide)⟩

/-- The column the spec's string fallback designates: the first column (in
original order) containing at least one string-typed value. Stated from the
spec's words, for comparison with the code. -/
def specFirstStringColumn (r : TabularResult) : Option (String × List Value) :=
  r.cols.find? (fun c => c.2.any Value.isStr)

/-- C5 counterexample: for columns `c1 = [""]`, `c2 = ["foo"]` (no priority
name matches), the first column containing a string-typed value is `c1`,
whose string-typed non-blank values are `[]`, so the claim predicts the
empty result; the code instead skips the all-blank column and returns
`["foo"]`. -/
theorem c5_counterexample :
    specFirstStringColumn ⟨[("c1", [.str ""]), ("c2", [.str "foo"])]⟩ =
      some ("c1", [.str ""]) ∧
    nonblankStrings [.str ""] = [] ∧
    extractTableNames ⟨[("c1", [.str ""]), ("c2", [.str "foo"])]⟩ = ["foo"] ∧
    (["foo"] : List String) ≠ [] := by
  refine ⟨rfl, rfl, rfl, by decide⟩

/-- C5 (amended): when no column's lower-cased name is in the priority list,
the column that contributes is the first column (in original order) whose
string-typed non-blank values are non-empty — columns all of whose string
values are blank are skipped — and the result is exactly those string-typed
non-blank values, in row order. -/
theorem c5_string_fallback (r : TabularResult) (c : String × List Value)
    (pre post : List (String × List Value))
    (hne : r.isEmpty = false)
    (hnopri : ∀ c' ∈ r.cols, pyLower c'.1 ∉ priorityNames)
    (hsplit : r.cols = pre ++ c :: post)
    (hpre : ∀ c' ∈ pre, nonblankStrings c'.2 = [])
    (hc : nonblankStrings c.2 ≠ []) :
    extractTableNames r = nonblankStrings c.2 := by
  have hfind : priorityNames.findSome? (fun p => columnForLower r p) = none := by
    rw [List.findSome?_eq_none_iff]
    intro p hp
    unfold columnForLower
    rw [List.find?_eq_none]
    intro x hxm
    simp only [beq_iff_eq]
    intro heq
    exact hnopri x (List.mem_reverse.mp hxm) (heq ▸ hp)
  have hany : c.2.any Value.isStr = true := by
    obtain ⟨s, hs⟩ := List.exists_mem_of_ne_nil _ hc
    rw [nonblankStrings, List.mem_filterMap] at hs
    obtain ⟨v, hv, hvs⟩ := hs
    rw [List.any_eq_true]
    refine ⟨v, hv, ?_⟩
    cases v <;> simp_all [Value.isStr]
  have hstep : r.cols.findSome? (fun c =>
      if c.2.any Value.isStr then
        (if nonblankStrings c.2 ≠ [] then some (nonblankStrings c.2) else none)
      else none) = some (nonblankStrings c.2) := by
    rw [hsplit, List.findSome?_append]
    have hfs : pre.findSome? (fun c =>
        if c.2.any Value.isStr then
          (if nonblankStrings c.2 ≠ [] then some (nonblankStrings c.2) else none)
        else none) = none := by
      rw [List.findSome?_eq_none_iff]
      intro x hx
      simp [hpre x hx]
    rw [hfs, List.findSome?_cons]
    simp [hany, hc]
  simp only [extractTableNames, hne, Bool.false_eq_true, if_false, hfind, hstep]

/-- C5 witness: a boolean flag column followed by a string column with
non-blank values `["foo","bar"]`. -/
theorem c5_witness :
    extractTableNames
      ⟨[("isTemporary", [.bool false, .bool true]),
        ("c1", [.str "foo", .str "bar"])]⟩ = ["foo", "bar"] :=
  c5_string_fallback
    ⟨[("isTemporary", [.bool false, .bool true]),
      ("c1", [.str "foo", .str "bar"])]⟩
    ("c1", [.str "foo", .str "bar"])
    [("isTemporary", [.bool false, .bool true])] []
    (by decide) (by decide) rfl (by decide) (by decide)

lemma pyStartsWith_append (p s : String) : pyStartsWith (p ++ s) p = true := by
  unfold pyStartsWith
  rw [String.data_append p s, List.isPrefixOf_iff_prefix]
  exact List.prefix_append _ _

lemma pyDrop_append (p s : String) : pyDrop (p ++ s) p.length = s := by
  unfold pyDrop
  rw [String.data_append p s, show p.length = p.data.length from rfl,
    List.drop_left]

lemma filterMap_congr_some {α β : Type} (l : List α) (f : α → Option β)
    (g : α → β) (h : ∀ a ∈ l, f a = some (g a)) : l.filterMap f = l.map g := by
  induction l with
  | nil => rfl
  | cons a t ih =>
    rw [List.filterMap_cons, h a (List.mem_cons_self a t)]
    rw [ih (fun x hx => h x (List.mem_cons_of_mem a hx))]
    rfl

lemma filterMap_congr_none {α β : Type} (l : List α) (f : α → Option β)
    (h : ∀ a ∈ l, f a = none) : l.filterMap f = [] := by
  induction l with
  | nil => rfl
  | cons a t ih =>
    rw [List.filterMap_cons, h a (List.mem_cons_self a t)]
    exact ih (fun x hx => h x (List.mem_cons_of_mem a hx))

lemma portBase_ne (kv : String × Value) (h : ¬kv.1 = "port") : portBase kv = kv := by
  simp [portBase, h]

/-- Flattening a configuration record into a carrier map under prefix `pfx`:
each base field as `pfx<field>` in declared order, each settings entry as
`pfx` `configuration.<key>`; the `port` entry carries the supplied `port`
value (native integer or digit string). -/
def flattenRecord (cfg : HiveConfig) (pfx : String) (port : Value) : Dict :=
  [(pfx ++ "host", .str cfg.host),
   (pfx ++ "port", port),
   (pfx ++ "database", match cfg.database with
     | none => Value.null
     | some d => Value.str d),
   (pfx ++ "username", .str cfg.username),
   (pfx ++ "password", .str cfg.password),
   (pfx ++ "auth", match cfg.auth with
     | none => Value.null
     | some a => Value.str a),
   (pfx ++ "timeout_seconds", .int cfg.timeout_seconds)] ++
  cfg.configuration.map (fun kv => (pfx ++ "configuration." ++ kv.1, kv.2))

lemma extract_flatten (cfg : HiveConfig) (pfx : String) (port pv : Value)
    (hpv : portBase ("port", port) = ("port", pv)) :
    extractPrefixedConfig (flattenRecord cfg pfx port) pfx =
      { base := [("host", .str cfg.host), ("port", pv),
                 ("database", match cfg.database with
                   | none => Value.null
                   | some d => Value.str d),
                 ("username", .str cfg.username), ("password", .str cfg.password),
                 ("auth", match cfg.auth with
                   | none => Value.null
                   | some a => Value.str a),
                 ("timeout_seconds", .int cfg.timeout_seconds)],
        configuration := cfg.configuration } := by
  have hmap : (cfg.configuration.map
        (fun kv => (pfx ++ "configuration." ++ kv.1, kv.2))).filterMap
      (fun kv => if pyStartsWith kv.1 pfx then
        some (pyDrop kv.1 pfx.length, kv.2) else none) =
      cfg.configuration.map (fun kv => ("configuration." ++ kv.1, kv.2)) := by
    rw [List.filterMap_map]
    apply filterMap_congr_some
    intro a _
    simp [Function.comp, String.append_assoc, pyStartsWith_append, pyDrop_append]
  have hive : (flattenRecord cfg pfx port).filterMap
      (fun kv => if pyStartsWith kv.1 pfx then
        some (pyDrop kv.1 pfx.length, kv.2) else none) =
      [("host", Value.str cfg.host), ("port", port),
       ("database", match cfg.database with
         | none => Value.null
         | some d => Value.str d),
       ("username", Value.str cfg.username), ("password", Value.str cfg.password),
       ("auth", match cfg.auth with
         | none => Value.null
         | some a => Value.str a),
       ("timeout_seconds", Value.int cfg.timeout_seconds)] ++
      cfg.configuration.map (fun kv => ("configuration." ++ kv.1, kv.2)) := by
    unfold flattenRecord
    rw [List.filterMap_append, hmap]
    congr 1
    simp [List.filterMap_cons, pyStartsWith_append, pyDrop_append]
  have nb1 : pyStartsWith "host" "configuration." = false := by decide
  have nb2 : pyStartsWith "port" "configuration." = false := by decide
  have nb3 : pyStartsWith "database" "configuration." = false := by decide
  have nb4 : pyStartsWith "username" "configuration." = false := by decide
  have nb5 : pyStartsWith "password" "configuration." = false := by decide
  have nb6 : pyStartsWith "auth" "configuration." = false := by decide
  have nb7 : pyStartsWith "timeout_seconds" "configuration." = false := by decide
  have pyDrop_configuration : ∀ k : String, pyDrop ("configuration." ++ k) 14 = k :=
    fun k => pyDrop_append "configuration." k
  simp only [extractPrefixedConfig]
  rw [hive]
  congr 1
  · rw [List.filterMap_append]
    have hm0 : (cfg.configuration.map
          (fun kv => ("configuration." ++ kv.1, kv.2))).filterMap
        (fun kv => if pyStartsWith kv.1 "configuration." then none
          else some (portBase kv)) = [] := by
      rw [List.filterMap_map]
      apply filterMap_congr_none
      intro a _
      simp [Function.comp, pyStartsWith_append]
    rw [hm0, List.append_nil]
    simp [List.filterMap_cons, nb1, nb2, nb3, nb4, nb5, nb6, nb7,
      portBase_ne, hpv]
  · rw [List.filterMap_append]
    have h7 : ([("host", Value.str cfg.host), ("port", port),
        ("database", match cfg.database with
          | none => Value.null
          | some d => Value.str d),
        ("username", Value.str cfg.username), ("password", Value.str cfg.password),
        ("auth", match cfg.auth with
          | none => Value.null
          | some a => Value.str a),
        ("timeout_seconds", Value.int cfg.timeout_seconds)] : Dict).filterMap
        (fun kv => if pyStartsWith kv.1 "configuration." then
          some (pyDrop kv.1 14, kv.2) else none) = [] := by
      simp [List.filterMap_cons, nb1, nb2, nb3, nb4, nb5, nb6, nb7]
    have hmm : (cfg.configuration.map
          (fun kv => ("configuration." ++ kv.1, kv.2))).filterMap
        (fun kv => if pyStartsWith kv.1 "configuration." then
          some (pyDrop kv.1 14, kv.2) else none) = cfg.configuration := by
      rw [List.filterMap_map]
      rw [filterMap_congr_some _ _ (fun a => a) ?_]
      · simp
      · intro a _
        simp [Function.comp, pyStartsWith_append, pyDrop_configuration]
    rw [h7, hmm, List.nil_append]

/-- C1: flattening a configuration record under prefix `pfx` (base fields as
`pfx<field>`, settings as `pfx` `configuration.<key>`) and extracting with
prefix `pfx` reproduces the record exactly, with `port` reconstructed to the
same integer whether supplied as the native integer or as a string of decimal
digits denoting it. -/
theorem c1_round_trip (cfg : HiveConfig) (pfx : String) :
    HiveConfig.from_config_map (flattenRecord cfg pfx (.int cfg.port)) pfx =
      Except.ok cfg ∧
    (∀ s : String, pyIsDigit s = true → digitsVal s = cfg.port →
      HiveConfig.from_config_map (flattenRecord cfg pfx (.str s)) pfx =
        Except.ok cfg) := by
  obtain ⟨host, port, database, username, password, auth, configuration,
    timeout_seconds⟩ := cfg
  constructor
  · unfold HiveConfig.from_config_map
    rw [extract_flatten _ pfx (.int port) (.int port) rfl]
    cases database <;> cases auth <;> rfl
  · intro s hdig hval
    unfold HiveConfig.from_config_map
    rw [extract_flatten _ pfx (.str s) (.int port)
      (by simp [portBase, hdig, hval])]
    cases database <;> cases auth <;> rfl

/-- C1 witness: a concrete record flattened under prefix `"pfx."` with the
port given as the digit string `"10009"`. -/
theorem c1_witness :
    HiveConfig.from_config_map
      (flattenRecord
        { host := "h", port := 10009, database := some "db", username := "u",
          password := "pw", auth := some "LDAP",
          configuration := [("spark.app.name", .str "x")],
          timeout_seconds := 60 }
        "pfx." (.str "10009")) "pfx." =
      Except.ok
        { host := "h", port := 10009, database := some "db", username := "u",
          password := "pw", auth := some "LDAP",
          configuration := [("spark.app.name", .str "x")],
          timeout_seconds := 60 } :=
  (c1_round_trip _ "pfx.").2 "10009" (by decide) (by decide)

/-- C2 counterexample: pydantic only requires `username` to be present, not
non-empty — construction with `username = ""` succeeds and returns a record,
contradicting the claim that an empty username raises. -/
theorem c2_counterexample :
    HiveConfig.construct [("username", .str "")] [] =
      Except.ok
        { host := "127.0.0.1", port := 10000, database := none,
          username := "", password := "", auth := none, configuration := [],
          timeout_seconds := 30 } := by
  rfl

/-- C2 (amended): construction raises a validation error exactly when the
`username` field is missing (an empty string is accepted), or an unrecognized
top-level key is present, or a declared field's value cannot be coerced to
its declared type; the error is the `Except.error` outcome, so no record is
returned in the failing cases. -/
theorem c2_validation (base configuration : Dict) :
    (∃ e, HiveConfig.construct base configuration = Except.error e) ↔
      (base.lookup "username" = none ∨
       (∃ k ∈ base.map Prod.fst, k ∉ allowedKeys) ∨
       (∃ v, base.lookup "host" = some v ∧ coerceStr v = none) ∨
       (∃ v, base.lookup "port" = some v ∧ coerceInt v = none) ∨
       (∃ v, base.lookup "database" = some v ∧ coerceOptStr v = none) ∨
       (∃ v, base.lookup "username" = some v ∧ coerceStr v = none) ∨
       (∃ v, base.lookup "password" = some v ∧ coerceStr v = none) ∨
       (∃ v, base.lookup "auth" = some v ∧ coerceOptStr v = none) ∨
       (∃ v, base.lookup "timeout_seconds" = some v ∧ coerceInt v = none)) := by
  cases hall : (base.map Prod.fst).all (fun k => allowedKeys.contains k) with
  | false =>
    have hc : HiveConfig.construct base configuration =
        Except.error ConfigError.extraField := by
      simp only [HiveConfig.construct]
      rw [hall]
      rfl
    have hrhs : ∃ k ∈ base.map Prod.fst, k ∉ allowedKeys := by
      rw [List.all_eq_false] at hall
      obtain ⟨k, hk, hnk⟩ := hall
      exact ⟨k, hk, fun hmem => hnk (List.elem_iff.mpr hmem)⟩
    exact iff_of_true ⟨_, hc⟩ (Or.inr (Or.inl hrhs))
  | true =>
    constructor
    · rintro ⟨e, he⟩
      by_contra hn
      push_neg at hn
      obtain ⟨hu, _, hhost, hport, hdb, husr, hpw, hauth, hto⟩ := hn
      have e1 : ∃ a, fieldOr base "host" coerceStr (pure "127.0.0.1") =
          Except.ok a := by
        unfold fieldOr
        cases h : base.lookup "host" with
        | none => exact ⟨_, rfl⟩
        | some v =>
          cases hcv : coerceStr v with
          | some a => exact ⟨a, by simp [hcv]⟩
          | none => exact absurd hcv (hhost v h)
      have e2 : ∃ a, fieldOr base "port" coerceInt (pure 10000) =
          Except.ok a := by
        unfold fieldOr
        cases h : base.lookup "port" with
        | none => exact ⟨_, rfl⟩
        | some v =>
          cases hcv : coerceInt v with
          | some a => exact ⟨a, by simp [hcv]⟩
          | none => exact absurd hcv (hport v h)
      have e3 : ∃ a, fieldOr base "database" coerceOptStr (pure none) =
          Except.ok a := by
        unfold fieldOr
        cases h : base.lookup "database" with
        | none => exact ⟨_, rfl⟩
        | some v =>
          cases hcv : coerceOptStr v with
          | some a => exact ⟨a, by simp [hcv]⟩
          | none => exact absurd hcv (hdb v h)
      have e4 : ∃ a, fieldOr base "username" coerceStr
          (throw ConfigError.missingField) = Except.ok a := by
        unfold fieldOr
        cases h : base.lookup "username" with
        | none => exact absurd h hu
        | some v =>
          cases hcv : coerceStr v with
          | some a => exact ⟨a, by simp [hcv]⟩
          | none => exact absurd hcv (husr v h)
      have e5 : ∃ a, fieldOr base "password" coerceStr (pure "") =
          Except.ok a := by
        unfold fieldOr
        cases h : base.lookup "password" with
        | none => exact ⟨_, rfl⟩
        | some v =>
          cases hcv : coerceStr v with
          | some a => exact ⟨a, by simp [hcv]⟩
          | none => exact absurd hcv (hpw v h)
      have e6 : ∃ a, fieldOr base "auth" coerceOptStr (pure none) =
          Except.ok a := by
        unfold fieldOr
        cases h : base.lookup "auth" with
        | none => exact ⟨_, rfl⟩
        | some v =>
          cases hcv : coerceOptStr v with
          | some a => exact ⟨a, by simp [hcv]⟩
          | none => exact absurd hcv (hauth v h)
      have e7 : ∃ a, fieldOr base "timeout_seconds" coerceInt (pure 30) =
          Except.ok a := by
        unfold fieldOr
        cases h : base.lookup "timeout_seconds" with
        | none => exact ⟨_, rfl⟩
        | some v =>
          cases hcv : coerceInt v with
          | some a => exact ⟨a, by simp [hcv]⟩
          | none => exact absurd hcv (hto v h)
      obtain ⟨a1, h1⟩ := e1
      obtain ⟨a2, h2⟩ := e2
      obtain ⟨a3, h3⟩ := e3
      obtain ⟨a4, h4⟩ := e4
      obtain ⟨a5, h5⟩ := e5
      obtain ⟨a6, h6⟩ := e6
      obtain ⟨a7, h7⟩ := e7
      have hok : HiveConfig.construct base configuration = Except.ok
          { host := a1, port := a2, database := a3, username := a4,
            password := a5, auth := a6, configuration := configuration,
            timeout_seconds := a7 } := by
        simp only [HiveConfig.construct]
        rw [hall, h1, h2, h3, h4, h5, h6, h7]
        rfl
      rw [hok] at he
      exact Except.noConfusion he
    · intro h
      rcases hcon : HiveConfig.construct base configuration with e | c
      · exact ⟨e, rfl⟩
      · exfalso
        simp only [HiveConfig.construct] at hcon
        rw [hall] at hcon
        rcases hf1 : fieldOr base "host" coerceStr (pure "127.0.0.1")
          with e1 | a1
        · rw [hf1] at hcon
          exact Except.noConfusion
            (show (Except.error e1 : Except ConfigError HiveConfig) =
              Except.ok c from hcon)
        rcases hf2 : fieldOr base "port" coerceInt (pure 10000) with e2 | a2
        · rw [hf1, hf2] at hcon
          exact Except.noConfusion
            (show (Except.error e2 : Except ConfigError HiveConfig) =
              Except.ok c from hcon)
        rcases hf3 : fieldOr base "database" coerceOptStr (pure none)
          with e3 | a3
        · rw [hf1, hf2, hf3] at hcon
          exact Except.noConfusion
            (show (Except.error e3 : Except ConfigError HiveConfig) =
              Except.ok c from hcon)
        rcases hf4 : fieldOr base "username" coerceStr
            (throw ConfigError.missingField) with e4 | a4
        · rw [hf1, hf2, hf3, hf4] at hcon
          exact Except.noConfusion
            (show (Except.error e4 : Except ConfigError HiveConfig) =
              Except.ok c from hcon)
        rcases hf5 : fieldOr base "password" coerceStr (pure "") with e5 | a5
        · rw [hf1, hf2, hf3, hf4, hf5] at hcon
          exact Except.noConfusion
            (show (Except.error e5 : Except ConfigError HiveConfig) =
              Except.ok c from hcon)
        rcases hf6 : fieldOr base "auth" coerceOptStr (pure none) with e6 | a6
        · rw [hf1, hf2, hf3, hf4, hf5, hf6] at hcon
          exact Except.noConfusion
            (show (Except.error e6 : Except ConfigError HiveConfig) =
              Except.ok c from hcon)
        rcases hf7 : fieldOr base "timeout_seconds" coerceInt (pure 30)
          with e7 | a7
        · rw [hf1, hf2, hf3, hf4, hf5, hf6, hf7] at hcon
          exact Except.noConfusion
            (show (Except.error e7 : Except ConfigError HiveConfig) =
              Except.ok c from hcon)
        rcases h with h | h | h | h | h | h | h | h | h
        · unfold fieldOr at hf4
          rw [h] at hf4
          simp at hf4
        · obtain ⟨k, hk, hnk⟩ := h
          rw [List.all_eq_true] at hall
          exact hnk (List.elem_iff.mp (hall k hk))
        · obtain ⟨v, hv, hcv⟩ := h
          unfold fieldOr at hf1
          rw [hv] at hf1
          simp [hcv] at hf1
        · obtain ⟨v, hv, hcv⟩ := h
          unfold fieldOr at hf2
          rw [hv] at hf2
          simp [hcv] at hf2
        · obtain ⟨v, hv, hcv⟩ := h
          unfold fieldOr at hf3
          rw [hv] at hf3
          simp [hcv] at hf3
        · obtain ⟨v, hv, hcv⟩ := h
          unfold fieldOr at hf4
          rw [hv] at hf4
          simp [hcv] at hf4
        · obtain ⟨v, hv, hcv⟩ := h
          unfold fieldOr at hf5
          rw [hv] at hf5
          simp [hcv] at hf5
        · obtain ⟨v, hv, hcv⟩ := h
          unfold fieldOr at hf6
          rw [hv] at hf6
          simp [hcv] at hf6
        · obtain ⟨v, hv, hcv⟩ := h
          unfold fieldOr at hf7
          rw [hv] at hf7
          simp [hcv] at hf7

/-- C3 counterexample: with prefix `"p."`, a carrier entry whose key is
exactly `"p."` is not ignored — extraction keeps it as the base key `""`,
which pydantic rejects as an unrecognized field, while the same map without
that entry constructs a record. -/
theorem c3_counterexample :
    HiveConfig.from_config_map
      [("p.", .str "x"), ("p.username", .str "u")] "p." =
      Except.error ConfigError.extraField ∧
    HiveConfig.from_config_map [("p.username", .str "u")] "p." =
      Except.ok
        { host := "127.0.0.1", port := 10000, database := none,
          username := "u", password := "", auth := none, configuration := [],
          timeout_seconds := 30 } :=
  ⟨rfl, rfl⟩

/-- C3 (amended): a map entry whose key equals the prefix exactly is not
ignored: extraction retains it as a base parameter under the empty local
key, and record construction then fails with an unrecognized-field
validation error whenever such an entry is present. -/
theorem c3_prefix_exact_entry (m : Dict) (pfx : String) (v : Value)
    (hmem : (pfx, v) ∈ m) :
    ("", v) ∈ (extractPrefixedConfig m pfx).base ∧
    HiveConfig.from_config_map m pfx = Except.error ConfigError.extraField := by
  have hsw : pyStartsWith pfx pfx = true := by
    unfold pyStartsWith
    rw [List.isPrefixOf_iff_prefix]
  have hdr : pyDrop pfx pfx.length = "" := by
    unfold pyDrop
    rw [show pfx.length = pfx.data.length from rfl, List.drop_length]
  have h1 : ("", v) ∈ m.filterMap (fun kv =>
      if pyStartsWith kv.1 pfx then
        some (pyDrop kv.1 pfx.length, kv.2) else none) :=
    List.mem_filterMap.mpr ⟨(pfx, v), hmem, by simp [hsw, hdr]⟩
  have h2 : ("", v) ∈ (extractPrefixedConfig m pfx).base := by
    simp only [extractPrefixedConfig]
    refine List.mem_filterMap.mpr ⟨("", v), h1, ?_⟩
    simp [(by decide : pyStartsWith "" "configuration." = false),
      portBase_ne ("", v) (by simp)]
  refine ⟨h2, ?_⟩
  have hkey : "" ∈ (extractPrefixedConfig m pfx).base.map Prod.fst :=
    List.mem_map.mpr ⟨("", v), h2, rfl⟩
  have hall : ((extractPrefixedConfig m pfx).base.map Prod.fst).all
      (fun k => allowedKeys.contains k) = false := by
    rw [List.all_eq_false]
    exact ⟨"", hkey, by decide⟩
  unfold HiveConfig.from_config_map
  simp only [HiveConfig.construct]
  rw [hall]
  rfl

/-- C3 witness: the amended statement at the concrete two-entry map. -/
theorem c3_witness :
    ("", Value.str "x") ∈
      (extractPrefixedConfig
        [("p.", .str "x"), ("p.username", .str "u")] "p.").base ∧
    HiveConfig.from_config_map
      [("p.", .str "x"), ("p.username", .str "u")] "p." =
      Except.error ConfigError.extraField :=
  c3_prefix_exact_entry [("p.", .str "x"), ("p.username", .str "u")] "p."
    (.str "x") (by decide)
